import Mathlib

/-!
Shallow embedding of the Maxwell-Boltzmann simulation repository.

The two source files are modelled over the real numbers:
`SimulationCanvas.js` (particle kinetics: integration, wall collisions,
pairwise inelastic collisions, velocity thermostat) and
`MBDistributionChart.js` (modified Maxwell-Boltzmann density curve and its
derived summary statistics).  JavaScript numbers are modelled as reals;
where JavaScript produces NaN from a division by zero the development
states the zero-divisor condition explicitly, since real-number division
by zero (which Lean defines as 0) would silently mask it.
-/

noncomputable section

/-- One gas molecule, as in `SimulationCanvas.js`: position `(x, y)`,
velocity `(vx, vy)`, and a radius. -/
@[ext]
structure Particle where
  x : ℝ
  y : ℝ
  vx : ℝ
  vy : ℝ
  radius : ℝ

/-- Canvas width (`const width = 400`). -/
def width : ℝ := 400

/-- Canvas height (`const height = 400`). -/
def height : ℝ := 400

/-- `const baseSpeedFactor = 0.5`. -/
def baseSpeedFactor : ℝ := 0.5

/-- `const restitution = 0.9`. -/
def restitution : ℝ := 0.9

/-- Center distance of two particles:
`Math.sqrt(dx * dx + dy * dy)` with `dx = p2.x - p1.x`, `dy = p2.y - p1.y`. -/
def pdist (p1 p2 : Particle) : ℝ :=
  Real.sqrt ((p2.x - p1.x) * (p2.x - p1.x) + (p2.y - p1.y) * (p2.y - p1.y))

/-- `handleCollision` from `SimulationCanvas.js`: inelastic collision
impulse for two particles.  Returns early (no change) when the center
distance is zero or the particles are already separating. -/
def handleCollision (p1 p2 : Particle) : Particle × Particle :=
  let dx := p2.x - p1.x
  let dy := p2.y - p1.y
  let d := pdist p1 p2
  if d = 0 then (p1, p2)
  else
    let nx := dx / d
    let ny := dy / d
    let dvx := p2.vx - p1.vx
    let dvy := p2.vy - p1.vy
    let relVel := dvx * nx + dvy * ny
    if relVel > 0 then (p1, p2)
    else
      let impulse := -(1 + restitution) * relVel / 2
      ({ p1 with vx := p1.vx - impulse * nx, vy := p1.vy - impulse * ny },
       { p2 with vx := p2.vx + impulse * nx, vy := p2.vy + impulse * ny })

/-- Position integration (`p.x += p.vx; p.y += p.vy`). -/
def integrate (p : Particle) : Particle :=
  { p with x := p.x + p.vx, y := p.y + p.vy }

/-- The x-axis half of the wall-collision block. -/
def wallCollideX (p : Particle) : Particle :=
  if p.x - p.radius < 0 then { p with x := p.radius, vx := |p.vx| }
  else if p.x + p.radius > width then { p with x := width - p.radius, vx := -|p.vx| }
  else p

/-- The y-axis half of the wall-collision block. -/
def wallCollideY (p : Particle) : Particle :=
  if p.y - p.radius < 0 then { p with y := p.radius, vy := |p.vy| }
  else if p.y + p.radius > height then { p with y := height - p.radius, vy := -|p.vy| }
  else p

/-- Wall collisions for one particle: the two independent axis blocks of
`updateParticles`, x first, then y. -/
def wallCollide (p : Particle) : Particle := wallCollideY (wallCollideX p)

/-- Body of the pairwise-collision loop of `updateParticles`: when the
centers are closer than the radius sum, call `handleCollision` and then
separate both particles by half the overlap along the center line.  The
separation divides by the center distance `d` without a zero guard, exactly
as the source does. -/
def resolvePair (p1 p2 : Particle) : Particle × Particle :=
  let dx := p2.x - p1.x
  let dy := p2.y - p1.y
  let d := pdist p1 p2
  if d < p1.radius + p2.radius then
    let q := handleCollision p1 p2
    let overlap := p1.radius + p2.radius - d
    let sepX := dx / d * (overlap / 2)
    let sepY := dy / d * (overlap / 2)
    ({ q.1 with x := q.1.x - sepX, y := q.1.y - sepY },
     { q.2 with x := q.2.x + sepX, y := q.2.y + sepY })
  else (p1, p2)

/-- Index pairs `(i, j)` with `i < j`, in the order of the source's nested
loops (`i` ascending, then `j` from `i + 1` ascending). -/
def pairList (n : ℕ) : List (ℕ × ℕ) :=
  (List.range n).flatMap fun i =>
    ((List.range n).map fun j => (i, j)).filter fun ij => ij.1 < ij.2

/-- Apply `resolvePair` to the particles at indices `i` and `j` of the
ensemble, writing both results back. -/
def updatePair (ps : List Particle) (i j : ℕ) : List Particle :=
  match ps[i]?, ps[j]? with
  | some p1, some p2 =>
      let q := resolvePair p1 p2
      (ps.set i q.1).set j q.2
  | _, _ => ps

/-- The full pairwise-collision pass of `updateParticles`. -/
def collisionPass (ps : List Particle) : List Particle :=
  (pairList ps.length).foldl (fun acc ij => updatePair acc ij.1 ij.2) ps

/-- Speed of a particle: `Math.sqrt(p.vx * p.vx + p.vy * p.vy)`. -/
def speed (p : Particle) : ℝ := Real.sqrt (p.vx * p.vx + p.vy * p.vy)

/-- Accumulated speed sum of the thermostat block (`sumSpeed`). -/
def sumSpeed (ps : List Particle) : ℝ := ps.foldl (fun s p => s + speed p) 0

/-- `const avgSpeed = sumSpeed / particles.length`. -/
def avgSpeed (ps : List Particle) : ℝ := sumSpeed ps / ps.length

/-- The thermostat's divisor `(avgSpeed || 1)`: JavaScript's `||` replaces
a zero average speed by 1. -/
def thermostatDivisor (ps : List Particle) : ℝ :=
  if avgSpeed ps = 0 then 1 else avgSpeed ps

/-- The thermostat block of `updateParticles`: rescale every velocity by
`desiredAvgSpeed / (avgSpeed || 1)` with
`desiredAvgSpeed = baseSpeedFactor * Math.sqrt(T)`. -/
def thermostat (T : ℝ) (ps : List Particle) : List Particle :=
  let desiredAvgSpeed := baseSpeedFactor * Real.sqrt T
  let scale := desiredAvgSpeed / thermostatDivisor ps
  ps.map fun p => { p with vx := p.vx * scale, vy := p.vy * scale }

/-- One animation-frame update of the ensemble (`updateParticles`, physics
part): integrate, wall collisions, pairwise collisions, thermostat. -/
def step (T : ℝ) (ps : List Particle) : List Particle :=
  thermostat T (collisionPass ((ps.map integrate).map wallCollide))

/-- Wall containment: the position lies within
`[radius, width - radius] × [radius, height - radius]`. -/
def inBox (p : Particle) : Prop :=
  p.radius ≤ p.x ∧ p.x ≤ width - p.radius ∧ p.radius ≤ p.y ∧ p.y ≤ height - p.radius

/-- Relative velocity of a pair along the unit collision normal
(the source's `relVel = dvx * nx + dvy * ny`). -/
def relVelN (p1 p2 : Particle) : ℝ :=
  ((p2.vx - p1.vx) * (p2.x - p1.x) + (p2.vy - p1.vy) * (p2.y - p1.y)) / pdist p1 p2

/-! Distribution model, from `MBDistributionChart.js`. -/

/-- `const totalParticles = 50`. -/
def totalParticles : ℝ := 50

/-- `const sharpness = 2`. -/
def sharpness : ℝ := 2

/-- `effectiveTemperature(T) = 0.5 * T + 50`. -/
def effectiveTemperature (T : ℝ) : ℝ := 0.5 * T + 50

/-- `mbDistribution(E, T)` from `MBDistributionChart.js`: `0` for
non-positive effective temperature, otherwise
`0.72 * norm * Math.sqrt(E) * Math.exp(-E / T_eff) * totalParticles` with
`norm = (2 / Math.sqrt(Math.PI)) * Math.pow(sharpness / T_eff, 1.5)`. -/
def mbDistribution (E T : ℝ) : ℝ :=
  let T_eff := effectiveTemperature T
  if T_eff ≤ 0 then 0
  else
    let norm := (2 / Real.sqrt Real.pi) * (sharpness / T_eff) ^ (1.5 : ℝ)
    0.72 * norm * Real.sqrt E * Real.exp (-E / T_eff) * totalParticles

/-- The fixed energy grid `0, 1, ..., 600`
(`Array.from({ length: N + 1 }, (_, i) => i)` with `N = 600`). -/
def energies : List ℝ := (List.range 601).map fun i => (i : ℝ)

/-- The dynamic data set: the curve
`energies.map((E) => ({ x: E, y: mbDistribution(E, temperature) }))`. -/
def dynamicData (T : ℝ) : List (ℝ × ℝ) :=
  energies.map fun E => (E, mbDistribution E T)

/-- Accumulated `sumE += pt.x * pt.y` of Effect 3. -/
def sumE (pts : List (ℝ × ℝ)) : ℝ := pts.foldl (fun s pt => s + pt.1 * pt.2) 0

/-- Accumulated `sumF += pt.y` of Effect 3 (also `totalArea`'s reduce in
`handleRecordData`). -/
def sumF (pts : List (ℝ × ℝ)) : ℝ := pts.foldl (fun s pt => s + pt.2) 0

/-- `const E_mean = sumF ? sumE / sumF : 0` over the dynamic data of
Effect 3. -/
def E_mean (T : ℝ) : ℝ :=
  if sumF (dynamicData T) = 0 then 0 else sumE (dynamicData T) / sumF (dynamicData T)

/-- `const threshold = showCatalyst ? 300 : 400` from `handleRecordData`. -/
def threshold (showCatalyst : Bool) : ℝ := if showCatalyst then 300 else 400

/-- `totalArea` from `handleRecordData`: sum of all densities of the
dynamic data. -/
def totalArea (T : ℝ) : ℝ := sumF (dynamicData T)

/-- `regionArea` from `handleRecordData`: sum of the densities at energies
at or above the threshold. -/
def regionArea (showCatalyst : Bool) (T : ℝ) : ℝ :=
  sumF ((dynamicData T).filter fun pt => decide (threshold showCatalyst ≤ pt.1))

/-- `const percentageAbove = totalArea ? (regionArea / totalArea) * 100 : 0`. -/
def percentageAbove (showCatalyst : Bool) (T : ℝ) : ℝ :=
  if totalArea T = 0 then 0 else regionArea showCatalyst T / totalArea T * 100

/-! Concrete inputs used by the closed statements below. -/

/-- Zero particle, used as the default value of list indexing in closed
statements. -/
def particle0 : Particle := ⟨0, 0, 0, 0, 0⟩

/-- Two overlapping particles at rest, inside the box, next to the left
wall. -/
def psC1 : List Particle := [⟨5, 200, 0, 0, 5⟩, ⟨6, 200, 0, 0, 5⟩]

/-- Three overlapping particles at rest in a horizontal row in the middle
of the box. -/
def psC5 : List Particle := [⟨100, 200, 0, 0, 5⟩, ⟨101, 200, 0, 0, 5⟩,
  ⟨102, 200, 0, 0, 5⟩]

/-- A single particle with speed 5. -/
def psW2 : List Particle := [⟨0, 0, 3, 4, 5⟩]

/-- Two particles at rest. -/
def psW9 : List Particle := [⟨10, 20, 0, 0, 5⟩, ⟨30, 40, 0, 0, 5⟩]

/-! Definitions taken from the wording of the specification, for the
refinement-style claims that compare the code's computation with the
spec's formula. -/

/-- Modelled from the spec wording of claim C6: the density formula
`0.72 * (2/sqrt(pi)) * (sharpness/T_eff)^1.5 * sqrt(E) * exp(-E/T_eff) * population`
with `T_eff = 0.5*T + 50`, `sharpness = 2`, `population = 50`, and `0`
whenever `T_eff ≤ 0`. -/
def density_spec (E T : ℝ) : ℝ :=
  if 0.5 * T + 50 ≤ 0 then 0
  else
    0.72 * (2 / Real.sqrt Real.pi) * (2 / (0.5 * T + 50)) ^ (1.5 : ℝ) *
      Real.sqrt E * Real.exp (-E / (0.5 * T + 50)) * 50

end

/-! Helper lemmas. -/

lemma foldl_add_map {α : Type} (f : α → ℝ) :
    ∀ (l : List α) (a : ℝ), l.foldl (fun s x => s + f x) a = a + (l.map f).sum := by
  intro l
  induction l with
  | nil => intro a; simp
  | cons x xs ih =>
      intro a
      simp only [List.foldl_cons, List.map_cons, List.sum_cons, ih]
      ring

lemma sumSpeed_eq (ps : List Particle) : sumSpeed ps = (ps.map speed).sum := by
  simpa using foldl_add_map speed ps 0

lemma sumF_eq (pts : List (ℝ × ℝ)) : sumF pts = (pts.map Prod.snd).sum := by
  simpa using foldl_add_map Prod.snd pts 0

lemma sumE_eq (pts : List (ℝ × ℝ)) :
    sumE pts = (pts.map fun pt => pt.1 * pt.2).sum := by
  simpa using foldl_add_map (fun pt => pt.1 * pt.2) pts 0

lemma pdist_nonneg (p1 p2 : Particle) : 0 ≤ pdist p1 p2 := Real.sqrt_nonneg _

lemma pdist_mul_self (p1 p2 : Particle) :
    pdist p1 p2 * pdist p1 p2 =
      (p2.x - p1.x) * (p2.x - p1.x) + (p2.y - p1.y) * (p2.y - p1.y) := by
  refine Real.mul_self_sqrt ?_
  have hx := mul_self_nonneg (p2.x - p1.x)
  have hy := mul_self_nonneg (p2.y - p1.y)
  linarith

lemma pdist_horiz (p1 p2 : Particle) (hy : p2.y = p1.y) :
    pdist p1 p2 = |p2.x - p1.x| := by
  rw [pdist, hy]
  have h0 : p1.y - p1.y = 0 := sub_self _
  rw [h0]
  rw [mul_zero, add_zero, Real.sqrt_mul_self_eq_abs]

lemma handleCollision_rest (p1 p2 : Particle) (h1 : p1.vx = 0) (h2 : p1.vy = 0)
    (h3 : p2.vx = 0) (h4 : p2.vy = 0) : handleCollision p1 p2 = (p1, p2) := by
  simp only [handleCollision]
  split_ifs with hd hv
  · rfl
  · rfl
  · have hrel : (p2.vx - p1.vx) * ((p2.x - p1.x) / pdist p1 p2) +
        (p2.vy - p1.vy) * ((p2.y - p1.y) / pdist p1 p2) = 0 := by
      rw [h1, h2, h3, h4]; ring
    refine Prod.ext ?_ ?_ <;> ext <;>
      simp [hrel]

lemma speed_zero (p : Particle) (h1 : p.vx = 0) (h2 : p.vy = 0) : speed p = 0 := by
  simp [speed, h1, h2]

lemma sumSpeed_rest (ps : List Particle) (h : ∀ p ∈ ps, p.vx = 0 ∧ p.vy = 0) :
    sumSpeed ps = 0 := by
  rw [sumSpeed_eq]
  refine List.sum_eq_zero ?_
  intro s hs
  obtain ⟨p, hp, rfl⟩ := List.mem_map.mp hs
  exact speed_zero p (h p hp).1 (h p hp).2

lemma thermostat_rest (T : ℝ) (ps : List Particle)
    (h : ∀ p ∈ ps, p.vx = 0 ∧ p.vy = 0) : thermostat T ps = ps := by
  unfold thermostat
  have hmap : ps.map (fun p => { p with
      vx := p.vx * (baseSpeedFactor * Real.sqrt T / thermostatDivisor ps),
      vy := p.vy * (baseSpeedFactor * Real.sqrt T / thermostatDivisor ps) }) =
      ps.map id := by
    refine List.map_congr_left ?_
    intro p hp
    have h1 := (h p hp).1
    have h2 := (h p hp).2
    ext <;> simp [h1, h2]
  rw [hmap, List.map_id]

lemma integrate_rest (p : Particle) (h1 : p.vx = 0) (h2 : p.vy = 0) :
    integrate p = p := by
  ext <;> simp [integrate, h1, h2]

lemma handleCollision_pos (p1 p2 : Particle) :
    (handleCollision p1 p2).1.x = p1.x ∧ (handleCollision p1 p2).1.y = p1.y ∧
    (handleCollision p1 p2).2.x = p2.x ∧ (handleCollision p1 p2).2.y = p2.y := by
  simp only [handleCollision]
  split_ifs <;> simp

lemma resolvePair_dist (p1 p2 : Particle) (h0 : 0 < pdist p1 p2)
    (hov : pdist p1 p2 < p1.radius + p2.radius) :
    pdist (resolvePair p1 p2).1 (resolvePair p1 p2).2 = p1.radius + p2.radius := by
  obtain ⟨hq1x, hq1y, hq2x, hq2y⟩ := handleCollision_pos p1 p2
  have hne : pdist p1 p2 ≠ 0 := ne_of_gt h0
  have hd := pdist_mul_self p1 p2
  have hR : 0 < p1.radius + p2.radius := lt_trans h0 hov
  simp only [resolvePair]
  rw [if_pos hov]
  rw [pdist]
  simp only [hq1x, hq1y, hq2x, hq2y]
  have hx : p2.x + (p2.x - p1.x) / pdist p1 p2 * ((p1.radius + p2.radius - pdist p1 p2) / 2) -
      (p1.x - (p2.x - p1.x) / pdist p1 p2 * ((p1.radius + p2.radius - pdist p1 p2) / 2)) =
      (p2.x - p1.x) * ((p1.radius + p2.radius) / pdist p1 p2) := by
    field_simp
    ring
  have hy : p2.y + (p2.y - p1.y) / pdist p1 p2 * ((p1.radius + p2.radius - pdist p1 p2) / 2) -
      (p1.y - (p2.y - p1.y) / pdist p1 p2 * ((p1.radius + p2.radius - pdist p1 p2) / 2)) =
      (p2.y - p1.y) * ((p1.radius + p2.radius) / pdist p1 p2) := by
    field_simp
    ring
  rw [hx, hy]
  have hA : (p2.x - p1.x) * ((p1.radius + p2.radius) / pdist p1 p2) *
      ((p2.x - p1.x) * ((p1.radius + p2.radius) / pdist p1 p2)) +
      (p2.y - p1.y) * ((p1.radius + p2.radius) / pdist p1 p2) *
      ((p2.y - p1.y) * ((p1.radius + p2.radius) / pdist p1 p2)) =
      (p1.radius + p2.radius) * (p1.radius + p2.radius) := by
    calc (p2.x - p1.x) * ((p1.radius + p2.radius) / pdist p1 p2) *
        ((p2.x - p1.x) * ((p1.radius + p2.radius) / pdist p1 p2)) +
        (p2.y - p1.y) * ((p1.radius + p2.radius) / pdist p1 p2) *
        ((p2.y - p1.y) * ((p1.radius + p2.radius) / pdist p1 p2)) =
        ((p2.x - p1.x) * (p2.x - p1.x) + (p2.y - p1.y) * (p2.y - p1.y)) *
          (((p1.radius + p2.radius) / pdist p1 p2) *
            ((p1.radius + p2.radius) / pdist p1 p2)) := by ring
      _ = (pdist p1 p2 * pdist p1 p2) *
          (((p1.radius + p2.radius) / pdist p1 p2) *
            ((p1.radius + p2.radius) / pdist p1 p2)) := by rw [← hd]
      _ = (pdist p1 p2 * ((p1.radius + p2.radius) / pdist p1 p2)) *
          (pdist p1 p2 * ((p1.radius + p2.radius) / pdist p1 p2)) := by ring
      _ = (p1.radius + p2.radius) * (p1.radius + p2.radius) := by
          rw [← mul_div_assoc, mul_div_cancel_left₀ _ hne]
  rw [hA, Real.sqrt_mul_self (le_of_lt hR)]

lemma resolvePair_rest_horiz (p1 p2 : Particle) (h1 : p1.vx = 0) (h2 : p1.vy = 0)
    (h3 : p2.vx = 0) (h4 : p2.vy = 0) (hy : p2.y = p1.y)
    (hov : |p2.x - p1.x| < p1.radius + p2.radius) :
    resolvePair p1 p2 =
      ({ p1 with x := p1.x - (p2.x - p1.x) / |p2.x - p1.x| *
          ((p1.radius + p2.radius - |p2.x - p1.x|) / 2) },
       { p2 with x := p2.x + (p2.x - p1.x) / |p2.x - p1.x| *
          ((p1.radius + p2.radius - |p2.x - p1.x|) / 2) }) := by
  have hd : pdist p1 p2 = |p2.x - p1.x| := pdist_horiz p1 p2 hy
  have hy0 : p2.y - p1.y = 0 := by rw [hy]; ring
  simp only [resolvePair, hd]
  rw [if_pos hov, handleCollision_rest p1 p2 h1 h2 h3 h4]
  refine Prod.ext ?_ ?_ <;> ext <;> simp [hy0]

lemma wallCollide_interior (p : Particle) (h1 : p.radius ≤ p.x)
    (h2 : p.x + p.radius ≤ width) (h3 : p.radius ≤ p.y)
    (h4 : p.y + p.radius ≤ height) : wallCollide p = p := by
  have hx : wallCollideX p = p := by
    unfold wallCollideX
    rw [if_neg (by push_neg; linarith), if_neg (by push_neg; linarith)]
  have hy : wallCollideY p = p := by
    unfold wallCollideY
    rw [if_neg (by push_neg; linarith), if_neg (by push_neg; linarith)]
  rw [wallCollide, hx, hy]

lemma wallCollideX_fields (p : Particle) (hw : p.radius + p.radius ≤ width) :
    (p.radius ≤ (wallCollideX p).x ∧ (wallCollideX p).x ≤ width - p.radius) ∧
    (wallCollideX p).y = p.y ∧ (wallCollideX p).radius = p.radius := by
  unfold wallCollideX
  split_ifs with h1 h2 <;> refine ⟨⟨?_, ?_⟩, rfl, rfl⟩ <;> (try simp) <;> linarith

lemma wallCollideY_fields (p : Particle) (hh : p.radius + p.radius ≤ height) :
    (p.radius ≤ (wallCollideY p).y ∧ (wallCollideY p).y ≤ height - p.radius) ∧
    (wallCollideY p).x = p.x ∧ (wallCollideY p).radius = p.radius := by
  unfold wallCollideY
  split_ifs with h1 h2 <;> refine ⟨⟨?_, ?_⟩, rfl, rfl⟩ <;> (try simp) <;> linarith

lemma wallCollide_inBox (p : Particle) (hw : p.radius + p.radius ≤ width)
    (hh : p.radius + p.radius ≤ height) : inBox (wallCollide p) := by
  obtain ⟨⟨ha, hb⟩, hy1, hr1⟩ := wallCollideX_fields p hw
  obtain ⟨⟨hc, hd⟩, hx2, hr2⟩ := wallCollideY_fields (wallCollideX p) (by rw [hr1]; exact hh)
  rw [hr1] at hc hd
  unfold wallCollide inBox
  rw [hr2, hr1, hx2]
  exact ⟨ha, hb, hc, hd⟩

/-! Concrete evaluation of `step` on the two counterexample ensembles. -/

lemma resolvePair_c1 : resolvePair (⟨5, 200, 0, 0, 5⟩ : Particle) ⟨6, 200, 0, 0, 5⟩ =
    ((⟨0.5, 200, 0, 0, 5⟩ : Particle), (⟨10.5, 200, 0, 0, 5⟩ : Particle)) := by
  rw [resolvePair_rest_horiz (⟨5, 200, 0, 0, 5⟩ : Particle) ⟨6, 200, 0, 0, 5⟩
    rfl rfl rfl rfl rfl (by norm_num [abs_of_nonneg])]
  refine Prod.ext ?_ ?_ <;> ext <;> norm_num [abs_of_nonneg]

lemma step_c1_eval : step 100 psC1 =
    [⟨0.5, 200, 0, 0, 5⟩, ⟨10.5, 200, 0, 0, 5⟩] := by
  have hwa : wallCollide (⟨5, 200, 0, 0, 5⟩ : Particle) = ⟨5, 200, 0, 0, 5⟩ := by
    refine wallCollide_interior _ ?_ ?_ ?_ ?_ <;> norm_num [width, height]
  have hwb : wallCollide (⟨6, 200, 0, 0, 5⟩ : Particle) = ⟨6, 200, 0, 0, 5⟩ := by
    refine wallCollide_interior _ ?_ ?_ ?_ ?_ <;> norm_num [width, height]
  have hia : integrate (⟨5, 200, 0, 0, 5⟩ : Particle) = ⟨5, 200, 0, 0, 5⟩ :=
    integrate_rest _ rfl rfl
  have hib : integrate (⟨6, 200, 0, 0, 5⟩ : Particle) = ⟨6, 200, 0, 0, 5⟩ :=
    integrate_rest _ rfl rfl
  have hmap : (psC1.map integrate).map wallCollide = psC1 := by
    simp only [psC1, List.map_cons, List.map_nil, hia, hib, hwa, hwb]
  have hup : updatePair psC1 0 1 =
      (psC1.set 0 (resolvePair (⟨5, 200, 0, 0, 5⟩ : Particle) ⟨6, 200, 0, 0, 5⟩).1).set 1
        (resolvePair (⟨5, 200, 0, 0, 5⟩ : Particle) ⟨6, 200, 0, 0, 5⟩).2 := rfl
  have hcp : collisionPass psC1 = [⟨0.5, 200, 0, 0, 5⟩, ⟨10.5, 200, 0, 0, 5⟩] := by
    unfold collisionPass
    rw [show psC1.length = 2 from rfl, show pairList 2 = [(0, 1)] from rfl]
    simp only [List.foldl_cons, List.foldl_nil]
    rw [hup, resolvePair_c1]
    simp [psC1]
  unfold step
  rw [hmap, hcp]
  refine thermostat_rest _ _ ?_
  intro p hp
  simp only [List.mem_cons, List.not_mem_nil, or_false] at hp
  rcases hp with h | h <;> subst h <;> exact ⟨rfl, rfl⟩

lemma resolvePair_c5a :
    resolvePair (⟨100, 200, 0, 0, 5⟩ : Particle) ⟨101, 200, 0, 0, 5⟩ =
    ((⟨95.5, 200, 0, 0, 5⟩ : Particle), (⟨105.5, 200, 0, 0, 5⟩ : Particle)) := by
  rw [resolvePair_rest_horiz (⟨100, 200, 0, 0, 5⟩ : Particle) ⟨101, 200, 0, 0, 5⟩
    rfl rfl rfl rfl rfl (by norm_num [abs_of_nonneg])]
  refine Prod.ext ?_ ?_ <;> ext <;> norm_num [abs_of_nonneg]

lemma resolvePair_c5b :
    resolvePair (⟨95.5, 200, 0, 0, 5⟩ : Particle) ⟨102, 200, 0, 0, 5⟩ =
    ((⟨93.75, 200, 0, 0, 5⟩ : Particle), (⟨103.75, 200, 0, 0, 5⟩ : Particle)) := by
  rw [resolvePair_rest_horiz (⟨95.5, 200, 0, 0, 5⟩ : Particle) ⟨102, 200, 0, 0, 5⟩
    rfl rfl rfl rfl rfl (by norm_num [abs_of_nonneg])]
  refine Prod.ext ?_ ?_ <;> ext <;> norm_num [abs_of_nonneg]

lemma resolvePair_c5c :
    resolvePair (⟨105.5, 200, 0, 0, 5⟩ : Particle) ⟨103.75, 200, 0, 0, 5⟩ =
    ((⟨109.625, 200, 0, 0, 5⟩ : Particle), (⟨99.625, 200, 0, 0, 5⟩ : Particle)) := by
  rw [resolvePair_rest_horiz (⟨105.5, 200, 0, 0, 5⟩ : Particle) ⟨103.75, 200, 0, 0, 5⟩
    rfl rfl rfl rfl rfl (by norm_num [abs_of_nonneg])]
  refine Prod.ext ?_ ?_ <;> ext <;> norm_num [abs_of_nonneg]

lemma step_c5_eval : step 100 psC5 =
    [⟨93.75, 200, 0, 0, 5⟩, ⟨109.625, 200, 0, 0, 5⟩, ⟨99.625, 200, 0, 0, 5⟩] := by
  have hw : ∀ x y : ℝ, 5 ≤ x → x + 5 ≤ 400 → 5 ≤ y → y + 5 ≤ 400 →
      wallCollide (⟨x, y, 0, 0, 5⟩ : Particle) = ⟨x, y, 0, 0, 5⟩ := by
    intro x y hx1 hx2 hy1 hy2
    refine wallCollide_interior _ ?_ ?_ ?_ ?_ <;>
      simp only [width, height] <;> norm_num [hx1, hx2, hy1, hy2]
  have hi1 : integrate (⟨100, 200, 0, 0, 5⟩ : Particle) = ⟨100, 200, 0, 0, 5⟩ :=
    integrate_rest _ rfl rfl
  have hi2 : integrate (⟨101, 200, 0, 0, 5⟩ : Particle) = ⟨101, 200, 0, 0, 5⟩ :=
    integrate_rest _ rfl rfl
  have hi3 : integrate (⟨102, 200, 0, 0, 5⟩ : Particle) = ⟨102, 200, 0, 0, 5⟩ :=
    integrate_rest _ rfl rfl
  have hmap : (psC5.map integrate).map wallCollide = psC5 := by
    simp only [psC5, List.map_cons, List.map_nil, hi1, hi2, hi3]
    rw [hw 100 200 (by norm_num) (by norm_num) (by norm_num) (by norm_num),
      hw 101 200 (by norm_num) (by norm_num) (by norm_num) (by norm_num),
      hw 102 200 (by norm_num) (by norm_num) (by norm_num) (by norm_num)]
  have hL1 : updatePair psC5 0 1 =
      [(⟨95.5, 200, 0, 0, 5⟩ : Particle), ⟨105.5, 200, 0, 0, 5⟩, ⟨102, 200, 0, 0, 5⟩] := by
    have h : updatePair psC5 0 1 =
        (psC5.set 0 (resolvePair (⟨100, 200, 0, 0, 5⟩ : Particle) ⟨101, 200, 0, 0, 5⟩).1).set 1
          (resolvePair (⟨100, 200, 0, 0, 5⟩ : Particle) ⟨101, 200, 0, 0, 5⟩).2 := rfl
    rw [h, resolvePair_c5a]
    simp [psC5]
  have hL2 : updatePair [(⟨95.5, 200, 0, 0, 5⟩ : Particle), ⟨105.5, 200, 0, 0, 5⟩,
      ⟨102, 200, 0, 0, 5⟩] 0 2 =
      [(⟨93.75, 200, 0, 0, 5⟩ : Particle), ⟨105.5, 200, 0, 0, 5⟩, ⟨103.75, 200, 0, 0, 5⟩] := by
    have h : updatePair [(⟨95.5, 200, 0, 0, 5⟩ : Particle), ⟨105.5, 200, 0, 0, 5⟩,
        ⟨102, 200, 0, 0, 5⟩] 0 2 =
        ([(⟨95.5, 200, 0, 0, 5⟩ : Particle), ⟨105.5, 200, 0, 0, 5⟩, ⟨102, 200, 0, 0, 5⟩].set 0
          (resolvePair (⟨95.5, 200, 0, 0, 5⟩ : Particle) ⟨102, 200, 0, 0, 5⟩).1).set 2
          (resolvePair (⟨95.5, 200, 0, 0, 5⟩ : Particle) ⟨102, 200, 0, 0, 5⟩).2 := rfl
    rw [h, resolvePair_c5b]
    simp
  have hL3 : updatePair [(⟨93.75, 200, 0, 0, 5⟩ : Particle), ⟨105.5, 200, 0, 0, 5⟩,
      ⟨103.75, 200, 0, 0, 5⟩] 1 2 =
      [(⟨93.75, 200, 0, 0, 5⟩ : Particle), ⟨109.625, 200, 0, 0, 5⟩, ⟨99.625, 200, 0, 0, 5⟩] := by
    have h : updatePair [(⟨93.75, 200, 0, 0, 5⟩ : Particle), ⟨105.5, 200, 0, 0, 5⟩,
        ⟨103.75, 200, 0, 0, 5⟩] 1 2 =
        ([(⟨93.75, 200, 0, 0, 5⟩ : Particle), ⟨105.5, 200, 0, 0, 5⟩, ⟨103.75, 200, 0, 0, 5⟩].set 1
          (resolvePair (⟨105.5, 200, 0, 0, 5⟩ : Particle) ⟨103.75, 200, 0, 0, 5⟩).1).set 2
          (resolvePair (⟨105.5, 200, 0, 0, 5⟩ : Particle) ⟨103.75, 200, 0, 0, 5⟩).2 := rfl
    rw [h, resolvePair_c5c]
    simp
  have hcp : collisionPass psC5 =
      [⟨93.75, 200, 0, 0, 5⟩, ⟨109.625, 200, 0, 0, 5⟩, ⟨99.625, 200, 0, 0, 5⟩] := by
    unfold collisionPass
    rw [show psC5.length = 3 from rfl, show pairList 3 = [(0, 1), (0, 2), (1, 2)] from rfl]
    simp only [List.foldl_cons, List.foldl_nil]
    rw [hL1, hL2, hL3]
  unfold step
  rw [hmap, hcp]
  refine thermostat_rest _ _ ?_
  intro p hp
  simp only [List.mem_cons, List.not_mem_nil, or_false] at hp
  rcases hp with h | h | h <;> subst h <;> exact ⟨rfl, rfl⟩

/-! Claim theorems. -/

/-- Claim C1, counterexample: an ensemble of two overlapping particles at
rest inside the box, with radius 5, leaves the box after a single `step`
at temperature 100: the pairwise separation runs after the wall clamping
and pushes particle 0 to `x = 0.5 < radius`. -/
theorem c1_counterexample :
    (∀ p ∈ psC1, inBox p) ∧ ¬ (∀ p ∈ step 100 psC1, inBox p) := by
  constructor
  · intro p hp
    simp only [psC1, List.mem_cons, List.not_mem_nil, or_false] at hp
    rcases hp with h | h <;> subst h <;> refine ⟨?_, ?_, ?_, ?_⟩ <;>
      norm_num [width, height]
  · intro h
    have hm : (⟨0.5, 200, 0, 0, 5⟩ : Particle) ∈ step 100 psC1 := by
      rw [step_c1_eval]
      exact List.mem_cons_self _ _
    have hb := (h _ hm).1
    norm_num at hb

/-- Claim C1, amended: inside every `step`, immediately after the
integration and wall-collision phases (before the pairwise separation),
every particle of an ensemble of radius-5 particles lies within
`[radius, width - radius] × [radius, height - radius]`. -/
theorem c1_theorem (ps : List Particle) (h : ∀ p ∈ ps, p.radius = 5) :
    ∀ q ∈ (ps.map integrate).map wallCollide, inBox q := by
  intro q hq
  simp only [List.map_map, List.mem_map, Function.comp] at hq
  obtain ⟨p, hp, rfl⟩ := hq
  have hr : (integrate p).radius = 5 := by
    simp [integrate, h p hp]
  refine wallCollide_inBox _ ?_ ?_ <;> rw [hr] <;> norm_num [width, height]

/-- Claim C1, witness for the amended theorem at the concrete ensemble
`psC1`. -/
theorem c1_witness :
    (∀ p ∈ psC1, p.radius = 5) ∧
    ∀ q ∈ (psC1.map integrate).map wallCollide, inBox q := by
  have h : ∀ p ∈ psC1, p.radius = 5 := by
    intro p hp
    simp only [psC1, List.mem_cons, List.not_mem_nil, or_false] at hp
    rcases hp with h | h <;> subst h <;> rfl
  exact ⟨h, c1_theorem psC1 h⟩

lemma sumSpeed_cons (p : Particle) (ps : List Particle) :
    sumSpeed (p :: ps) = speed p + sumSpeed ps := by
  rw [sumSpeed_eq, sumSpeed_eq, List.map_cons, List.sum_cons]

lemma speed_scale (p : Particle) (s : ℝ) :
    speed { p with vx := p.vx * s, vy := p.vy * s } = |s| * speed p := by
  show Real.sqrt (p.vx * s * (p.vx * s) + p.vy * s * (p.vy * s)) =
    |s| * Real.sqrt (p.vx * p.vx + p.vy * p.vy)
  rw [show p.vx * s * (p.vx * s) + p.vy * s * (p.vy * s) =
    s * s * (p.vx * p.vx + p.vy * p.vy) from by ring]
  rw [show s * s = |s| * |s| from (abs_mul_abs_self s).symm]
  rw [Real.sqrt_mul (by positivity) _]
  rw [Real.sqrt_mul_self (abs_nonneg s)]

lemma sumSpeed_scale (ps : List Particle) (s : ℝ) :
    sumSpeed (ps.map fun p => { p with vx := p.vx * s, vy := p.vy * s }) =
      |s| * sumSpeed ps := by
  induction ps with
  | nil => simp [sumSpeed]
  | cons p ps ih =>
      rw [List.map_cons, sumSpeed_cons, sumSpeed_cons, ih, speed_scale]
      ring

/-- Claim C2: after the thermostat pass with temperature `T ≥ 0`, the
ensemble mean speed equals `0.5 * sqrt T`, provided some particle had
nonzero speed before the rescaling. -/
theorem c2_theorem (T : ℝ) (ps : List Particle) (hT : 0 ≤ T)
    (h : ∃ p ∈ ps, speed p ≠ 0) :
    avgSpeed (thermostat T ps) = 0.5 * Real.sqrt T := by
  obtain ⟨p, hp, hps⟩ := h
  have hlen : ps.length ≠ 0 := by
    intro h0
    rw [List.length_eq_zero] at h0
    subst h0
    simp at hp
  have hnn : ∀ q ∈ ps.map speed, 0 ≤ q := by
    intro q hq
    obtain ⟨r, _, rfl⟩ := List.mem_map.mp hq
    exact Real.sqrt_nonneg _
  have hsum : 0 < sumSpeed ps := by
    rw [sumSpeed_eq]
    have hle : speed p ≤ (ps.map speed).sum :=
      List.single_le_sum hnn _ (List.mem_map_of_mem speed hp)
    have hpos : 0 < speed p := lt_of_le_of_ne (Real.sqrt_nonneg _) (Ne.symm hps)
    linarith
  have hlpos : (0 : ℝ) < ps.length := by
    have := Nat.pos_of_ne_zero hlen
    exact_mod_cast this
  have havg : 0 < avgSpeed ps := div_pos hsum hlpos
  have hdiv : thermostatDivisor ps = avgSpeed ps := by
    rw [thermostatDivisor, if_neg (ne_of_gt havg)]
  have hs_nonneg : 0 ≤ baseSpeedFactor * Real.sqrt T / thermostatDivisor ps := by
    rw [hdiv]
    refine div_nonneg (mul_nonneg ?_ (Real.sqrt_nonneg T)) (le_of_lt havg)
    norm_num [baseSpeedFactor]
  show avgSpeed (ps.map fun p => { p with
      vx := p.vx * (baseSpeedFactor * Real.sqrt T / thermostatDivisor ps),
      vy := p.vy * (baseSpeedFactor * Real.sqrt T / thermostatDivisor ps) }) =
    0.5 * Real.sqrt T
  rw [avgSpeed, sumSpeed_scale, List.length_map, abs_of_nonneg hs_nonneg, hdiv]
  rw [avgSpeed]
  have ha : sumSpeed ps ≠ 0 := ne_of_gt hsum
  have hn : (ps.length : ℝ) ≠ 0 := ne_of_gt hlpos
  field_simp
  rw [baseSpeedFactor]
  ring_nf
  exact Or.inl trivial

/-- Claim C2, witness: one particle with velocity `(3, 4)` at temperature
4; after the thermostat its mean speed is `0.5 * sqrt 4 = 1`. -/
theorem c2_witness :
    (0 : ℝ) ≤ 4 ∧ (∃ p ∈ psW2, speed p ≠ 0) ∧
    avgSpeed (thermostat 4 psW2) = 0.5 * Real.sqrt 4 := by
  have hsp : speed (⟨0, 0, 3, 4, 5⟩ : Particle) ≠ 0 := by
    show Real.sqrt ((3 : ℝ) * 3 + 4 * 4) ≠ 0
    rw [show (3 : ℝ) * 3 + 4 * 4 = 25 from by norm_num]
    exact ne_of_gt (Real.sqrt_pos.mpr (by norm_num))
  have hex : ∃ p ∈ psW2, speed p ≠ 0 :=
    ⟨⟨0, 0, 3, 4, 5⟩, List.mem_cons_self _ _, hsp⟩
  exact ⟨by norm_num, hex, c2_theorem 4 psW2 (by norm_num) hex⟩

lemma impulse_algebra (dx dy dvx dvy d r : ℝ) (hne : d ≠ 0)
    (hdd : d * d = dx * dx + dy * dy) :
    (dvx + 2 * (-(1 + r) * (dvx * (dx / d) + dvy * (dy / d)) / 2) * (dx / d)) * dx +
    (dvy + 2 * (-(1 + r) * (dvx * (dx / d) + dvy * (dy / d)) / 2) * (dy / d)) * dy =
    -r * (dvx * dx + dvy * dy) := by
  have hkey : dx * (dx / d) + dy * (dy / d) = d := by
    rw [show dx * (dx / d) + dy * (dy / d) = (dx * dx + dy * dy) / d from by ring,
      ← hdd, mul_div_assoc, div_self hne, mul_one]
  have hM : (dvx * (dx / d) + dvy * (dy / d)) * d = dvx * dx + dvy * dy := by
    rw [add_mul, mul_assoc, mul_assoc, div_mul_cancel₀ _ hne, div_mul_cancel₀ _ hne]
  linear_combination (-(1 + r)) * hM -
    (1 + r) * (dvx * (dx / d) + dvy * (dy / d)) * hkey

lemma relVelN_velocity_update (p1 p2 : Particle) (a1 b1 a2 b2 : ℝ) :
    relVelN { p1 with vx := a1, vy := b1 } { p2 with vx := a2, vy := b2 } =
      ((a2 - a1) * (p2.x - p1.x) + (b2 - b1) * (p2.y - p1.y)) / pdist p1 p2 := rfl

/-- Claim C3: for an overlapping pair with positive center distance and
negative relative normal velocity, `handleCollision` makes the
post-collision relative normal velocity equal to `-0.9` times the
pre-collision one. -/
theorem c3_theorem (p1 p2 : Particle) (h0 : 0 < pdist p1 p2)
    (_hov : pdist p1 p2 < p1.radius + p2.radius) (hrel : relVelN p1 p2 < 0) :
    relVelN (handleCollision p1 p2).1 (handleCollision p1 p2).2 =
      -0.9 * relVelN p1 p2 := by
  have hne : pdist p1 p2 ≠ 0 := ne_of_gt h0
  have hdd := pdist_mul_self p1 p2
  have hcode : (p2.vx - p1.vx) * ((p2.x - p1.x) / pdist p1 p2) +
      (p2.vy - p1.vy) * ((p2.y - p1.y) / pdist p1 p2) = relVelN p1 p2 := by
    rw [relVelN]
    field_simp
  simp only [handleCollision]
  rw [if_neg hne, if_neg (by rw [hcode]; linarith)]
  rw [relVelN_velocity_update, relVelN, restitution]
  linear_combination (pdist p1 p2)⁻¹ * impulse_algebra (p2.x - p1.x) (p2.y - p1.y)
    (p2.vx - p1.vx) (p2.vy - p1.vy) (pdist p1 p2) 0.9 hne hdd

/-- Claim C3, witness: head-on pair at distance 1 with closing speed 2;
the post-collision relative normal velocity is `-0.9 * (-2) = 1.8`. -/
theorem c3_witness :
    0 < pdist (⟨0, 0, 1, 0, 5⟩ : Particle) ⟨1, 0, -1, 0, 5⟩ ∧
    pdist (⟨0, 0, 1, 0, 5⟩ : Particle) ⟨1, 0, -1, 0, 5⟩ <
      (⟨0, 0, 1, 0, 5⟩ : Particle).radius + (⟨1, 0, -1, 0, 5⟩ : Particle).radius ∧
    relVelN (⟨0, 0, 1, 0, 5⟩ : Particle) ⟨1, 0, -1, 0, 5⟩ < 0 ∧
    relVelN (handleCollision (⟨0, 0, 1, 0, 5⟩ : Particle) ⟨1, 0, -1, 0, 5⟩).1
        (handleCollision (⟨0, 0, 1, 0, 5⟩ : Particle) ⟨1, 0, -1, 0, 5⟩).2 =
      -0.9 * relVelN (⟨0, 0, 1, 0, 5⟩ : Particle) ⟨1, 0, -1, 0, 5⟩ := by
  have hd : pdist (⟨0, 0, 1, 0, 5⟩ : Particle) ⟨1, 0, -1, 0, 5⟩ = 1 := by
    rw [pdist_horiz (⟨0, 0, 1, 0, 5⟩ : Particle) ⟨1, 0, -1, 0, 5⟩ rfl]
    norm_num
  have h0 : 0 < pdist (⟨0, 0, 1, 0, 5⟩ : Particle) ⟨1, 0, -1, 0, 5⟩ := by
    rw [hd]
    norm_num
  have hov : pdist (⟨0, 0, 1, 0, 5⟩ : Particle) ⟨1, 0, -1, 0, 5⟩ <
      (⟨0, 0, 1, 0, 5⟩ : Particle).radius + (⟨1, 0, -1, 0, 5⟩ : Particle).radius := by
    rw [hd]
    norm_num
  have hrel : relVelN (⟨0, 0, 1, 0, 5⟩ : Particle) ⟨1, 0, -1, 0, 5⟩ < 0 := by
    rw [relVelN, hd]
    norm_num
  exact ⟨h0, hov, hrel, c3_theorem _ _ h0 hov hrel⟩

/-- Claim C4: with two exactly coincident particles, the pair has center
distance 0, yet 0 is below the radius sum, so the pairwise loop of
`updateParticles` enters its overlap branch and computes the positional
separation `(dx / dist) * (overlap / 2)` with the zero divisor
`dist = 0` (a division by zero, producing NaN positions in JavaScript);
only `handleCollision` itself skips the degenerate pair.  This refutes the
claim that resolution is skipped entirely with no division by zero. -/
theorem c4_theorem :
    pdist (⟨200, 200, 0, 0, 5⟩ : Particle) ⟨200, 200, 0, 0, 5⟩ = 0 ∧
    pdist (⟨200, 200, 0, 0, 5⟩ : Particle) ⟨200, 200, 0, 0, 5⟩ <
      (⟨200, 200, 0, 0, 5⟩ : Particle).radius + (⟨200, 200, 0, 0, 5⟩ : Particle).radius ∧
    handleCollision (⟨200, 200, 0, 0, 5⟩ : Particle) ⟨200, 200, 0, 0, 5⟩ =
      ((⟨200, 200, 0, 0, 5⟩ : Particle), (⟨200, 200, 0, 0, 5⟩ : Particle)) := by
  have hd : pdist (⟨200, 200, 0, 0, 5⟩ : Particle) ⟨200, 200, 0, 0, 5⟩ = 0 := by
    rw [pdist_horiz _ _ rfl]
    norm_num
  refine ⟨hd, by rw [hd]; norm_num, ?_⟩
  simp only [handleCollision]
  rw [if_pos hd]

/-- Claim C5, counterexample: three overlapping particles at rest in a
row; after one `step`, resolving pair (1,2) pushes particle 2 back onto
particle 0, leaving the pair (0,2) at center distance 5.875, more than 1
below the radius sum 10. -/
theorem c5_counterexample :
    pdist ((step 100 psC5).getD 0 particle0) ((step 100 psC5).getD 2 particle0) <
      ((step 100 psC5).getD 0 particle0).radius +
      ((step 100 psC5).getD 2 particle0).radius - 1 := by
  rw [step_c5_eval]
  show pdist (⟨93.75, 200, 0, 0, 5⟩ : Particle) ⟨99.625, 200, 0, 0, 5⟩ <
    5 + 5 - 1
  rw [pdist_horiz (⟨93.75, 200, 0, 0, 5⟩ : Particle) ⟨99.625, 200, 0, 0, 5⟩ rfl]
  norm_num [abs_of_nonneg]

/-- Claim C5, amended: the separation applied when one overlapping pair
with positive center distance is resolved restores that pair's center
distance to exactly the sum of the radii; resolving other pairs later in
the same pass can reintroduce overlap, so the property holds per pair
resolution, not at the end of the whole pass. -/
theorem c5_theorem (p1 p2 : Particle) (h0 : 0 < pdist p1 p2)
    (hov : pdist p1 p2 < p1.radius + p2.radius) :
    pdist (resolvePair p1 p2).1 (resolvePair p1 p2).2 = p1.radius + p2.radius :=
  resolvePair_dist p1 p2 h0 hov

/-- Claim C5, witness for the amended theorem: the pair at distance 1 is
pushed back to distance 10. -/
theorem c5_witness :
    0 < pdist (⟨5, 200, 0, 0, 5⟩ : Particle) ⟨6, 200, 0, 0, 5⟩ ∧
    pdist (⟨5, 200, 0, 0, 5⟩ : Particle) ⟨6, 200, 0, 0, 5⟩ <
      (⟨5, 200, 0, 0, 5⟩ : Particle).radius + (⟨6, 200, 0, 0, 5⟩ : Particle).radius ∧
    pdist (resolvePair (⟨5, 200, 0, 0, 5⟩ : Particle) ⟨6, 200, 0, 0, 5⟩).1
        (resolvePair (⟨5, 200, 0, 0, 5⟩ : Particle) ⟨6, 200, 0, 0, 5⟩).2 =
      (⟨5, 200, 0, 0, 5⟩ : Particle).radius + (⟨6, 200, 0, 0, 5⟩ : Particle).radius := by
  have hd : pdist (⟨5, 200, 0, 0, 5⟩ : Particle) ⟨6, 200, 0, 0, 5⟩ = 1 := by
    rw [pdist_horiz (⟨5, 200, 0, 0, 5⟩ : Particle) ⟨6, 200, 0, 0, 5⟩ rfl]
    norm_num
  have h0 : 0 < pdist (⟨5, 200, 0, 0, 5⟩ : Particle) ⟨6, 200, 0, 0, 5⟩ := by
    rw [hd]
    norm_num
  have hov : pdist (⟨5, 200, 0, 0, 5⟩ : Particle) ⟨6, 200, 0, 0, 5⟩ <
      (⟨5, 200, 0, 0, 5⟩ : Particle).radius + (⟨6, 200, 0, 0, 5⟩ : Particle).radius := by
    rw [hd]
    norm_num
  exact ⟨h0, hov, c5_theorem _ _ h0 hov⟩

/-- Claim C6: for every energy `E ≥ 0` and temperature `T`, the code's
`mbDistribution` agrees with the spec formula: `0` when
`T_eff = 0.5 * T + 50 ≤ 0`, otherwise
`0.72 * (2/sqrt pi) * (2 / T_eff) ^ 1.5 * sqrt E * exp (-E / T_eff) * 50`. -/
theorem c6_theorem (E T : ℝ) (_hE : 0 ≤ E) :
    mbDistribution E T = density_spec E T := by
  simp only [mbDistribution, density_spec, effectiveTemperature, sharpness,
    totalParticles]
  split_ifs with h
  · rfl
  · ring

/-- Claim C6, witness at `E = 0`, `T = 300`. -/
theorem c6_witness : (0 : ℝ) ≤ 0 ∧ mbDistribution 0 300 = density_spec 0 300 :=
  ⟨le_refl 0, c6_theorem 0 300 (le_refl 0)⟩

/-- Claim C7: the recorded mean energy is the density-weighted average
`(sum of E * f E) / (sum of f E)` over the generated curve, and `0` when
the total density sum is `0`. -/
theorem c7_theorem (T : ℝ) :
    E_mean T = if ((dynamicData T).map Prod.snd).sum = 0 then 0
      else ((dynamicData T).map fun pt => pt.1 * pt.2).sum /
        ((dynamicData T).map Prod.snd).sum := by
  rw [E_mean, sumF_eq, sumE_eq]

/-- Claim C8: the recorded percentage above activation equals 100 times
the density sum over curve points with `E` at or above the threshold
(400 without catalyst, 300 with catalyst) divided by the total density
sum, and `0` when the total is `0`. -/
theorem c8_theorem (c : Bool) (T : ℝ) :
    percentageAbove c T =
      if ((dynamicData T).map Prod.snd).sum = 0 then 0
      else 100 * (((dynamicData T).filter fun pt =>
          decide ((if c then (300 : ℝ) else 400) ≤ pt.1)).map Prod.snd).sum /
        ((dynamicData T).map Prod.snd).sum := by
  rw [percentageAbove, totalArea, regionArea, threshold, sumF_eq, sumF_eq]
  split_ifs <;> ring

/-- Claim C9: if every particle is at rest, the thermostat's divisor
`(avgSpeed || 1)` is 1 (no division by zero) and the thermostat leaves the
ensemble unchanged. -/
theorem c9_theorem (T : ℝ) (ps : List Particle)
    (h : ∀ p ∈ ps, p.vx = 0 ∧ p.vy = 0) :
    thermostatDivisor ps = 1 ∧ thermostat T ps = ps := by
  have hz : avgSpeed ps = 0 := by
    rw [avgSpeed, sumSpeed_rest ps h, zero_div]
  exact ⟨by rw [thermostatDivisor, if_pos hz], thermostat_rest T ps h⟩

/-- Claim C9, witness: two particles at rest at temperature 300. -/
theorem c9_witness :
    (∀ p ∈ psW9, p.vx = 0 ∧ p.vy = 0) ∧
    thermostatDivisor psW9 = 1 ∧ thermostat 300 psW9 = psW9 := by
  have h : ∀ p ∈ psW9, p.vx = 0 ∧ p.vy = 0 := by
    intro p hp
    simp only [psW9, List.mem_cons, List.not_mem_nil, or_false] at hp
    rcases hp with h | h <;> subst h <;> exact ⟨rfl, rfl⟩
  exact ⟨h, c9_theorem 300 psW9 h⟩

/-- Claim C10: `handleCollision` conserves the pair's total momentum: the
vector sum of the two velocities is unchanged, in every branch. -/
theorem c10_theorem (p1 p2 : Particle) :
    (handleCollision p1 p2).1.vx + (handleCollision p1 p2).2.vx = p1.vx + p2.vx ∧
    (handleCollision p1 p2).1.vy + (handleCollision p1 p2).2.vy = p1.vy + p2.vy := by
  simp only [handleCollision]
  split_ifs <;> constructor <;> simp
